import Mathlib

/-!
# Verification of the Smart Expense Tracker ledger & aggregation pipeline

Shallow embedding of `src/app.py` (a Streamlit + pandas expense dashboard).

Modelling conventions:
* A pandas cell is `Cell`: a raw string, a numeric value (exact rationals
  stand in for the floats; every quantity the claims touch is decimal and
  exactly representable), a parsed datetime (calendar date; the app never
  uses a time-of-day), or the null marker (NaN/NaT).
* A DataFrame is a column-name list plus rows, each row an association list
  from column name to `Cell` (pandas rows are keyed by column label; extra
  columns beyond the fixed schema must survive, so rows are not a fixed
  record).
* `pd.to_datetime(-, errors="coerce")` / `pd.to_numeric(-, errors="coerce")`
  become the cell-wise `to_datetime` / `to_numeric` below.  The string
  parsers accept the ISO forms the app's data uses; pandas' conversion of
  raw numbers to epoch timestamps is abstracted to a fixed date (no claim
  depends on which date a number converts to, only that conversion of an
  already-parsed date is the identity and of null is null).
* Streamlit session state plus the CSV file on disk become `LedgerState`
  with fields `mem` (st.session_state.df) and `disk` (expenses.csv contents,
  as the table it deserialises to).
-/

set_option autoImplicit false

namespace Expense

/-- A calendar date, as carried by a pandas Timestamp (the app never uses a
time-of-day component). -/
structure SDate where
  year : Nat
  month : Nat
  day : Nat
deriving DecidableEq, Repr

/-- One pandas cell: raw string, numeric, datetime, or the null marker
(NaN/NaT). -/
inductive Cell where
  | str (s : String)
  | num (q : ℚ)
  | date (d : SDate)
  | null
deriving DecidableEq, Repr

/-- A DataFrame row: association list from column label to cell.  Lookup of
an absent label yields `Cell.null` (a pandas row read through `concat` /
`reindex` shows NaN there). -/
abbrev Row := List (String × Cell)

/-- First value stored under label `k`, null if the label is absent. -/
def Row.get (r : Row) (k : String) : Cell :=
  match r with
  | [] => Cell.null
  | p :: rest => if p.1 = k then p.2 else Row.get rest k

/-- Replace the first value stored under label `k` (append the pair if the
label is absent) — column assignment seen from one row. -/
def Row.set (r : Row) (k : String) (v : Cell) : Row :=
  match r with
  | [] => [(k, v)]
  | p :: rest => if p.1 = k then (k, v) :: rest else p :: Row.set rest k v

/-- Whether label `k` occurs in the row. -/
def Row.hasKey (r : Row) (k : String) : Bool :=
  match r with
  | [] => false
  | p :: rest => p.1 = k || Row.hasKey rest k

/-- A pandas DataFrame: ordered column labels plus rows. -/
structure DataFrame where
  cols : List String
  rows : List Row
deriving DecidableEq, Repr

/-- Column assignment `df[k] = f(df[k])`: apply `f` cell-wise to column `k`
of every row, creating the column when absent. -/
def DataFrame.mapCol (df : DataFrame) (k : String) (f : Cell → Cell) : DataFrame :=
  { cols := if k ∈ df.cols then df.cols else df.cols ++ [k],
    rows := df.rows.map fun r => r.set k (f (r.get k)) }

/-- Whether every label in `ks` holds a non-null cell in `r` (the row
survives `dropna(subset=ks)`). -/
def rowComplete (ks : List String) (r : Row) : Bool :=
  ks.all fun k => r.get k ≠ Cell.null

/-- `df.dropna(subset=ks)`: keep the rows whose cells under every label in
`ks` are non-null. -/
def DataFrame.dropna (df : DataFrame) (ks : List String) : DataFrame :=
  { df with rows := df.rows.filter (rowComplete ks) }

/-- Split a character list at every occurrence of `sep` (the pieces, in
order, separators removed). -/
def splitOnChar (sep : Char) : List Char → List (List Char)
  | [] => [[]]
  | c :: cs =>
    match splitOnChar sep cs with
    | [] => if c = sep then [[], []] else [[c]]
    | piece :: rest => if c = sep then [] :: piece :: rest else (c :: piece) :: rest

/-- Read a non-empty all-digit character list as a natural number. -/
def digitsToNat (cs : List Char) : Option Nat :=
  if cs ≠ [] ∧ cs.all Char.isDigit then
    some (cs.foldl (fun n c => n * 10 + (c.toNat - 48)) 0)
  else none

/-- Parse a decimal numeral, optionally signed, with an optional fractional
part — the strings `pd.to_numeric` accepts from this app's CSV data. -/
def parseNum (s : String) : Option ℚ :=
  let core : List Char → Option ℚ := fun t =>
    match splitOnChar '.' t with
    | [w] => (digitsToNat w).map fun n => (n : ℚ)
    | [w, f] =>
      match digitsToNat w, digitsToNat f with
      | some wn, some fn => some ((wn : ℚ) + (fn : ℚ) / ((10 : ℚ) ^ f.length))
      | _, _ => none
    | _ => none
  match s.data with
  | '-' :: rest => (core rest).map Neg.neg
  | cs => core cs

/-- Parse an ISO `YYYY-MM-DD` date string — the format the app's durable
file and the spec's examples use.  Anything else fails (pandas coerces the
failure to NaT). -/
def parseDate (s : String) : Option SDate :=
  match splitOnChar '-' s.data with
  | [y, m, d] =>
    match digitsToNat y, digitsToNat m, digitsToNat d with
    | some yn, some mn, some dn =>
      if 1 ≤ mn ∧ mn ≤ 12 ∧ 1 ≤ dn ∧ dn ≤ 31 then some ⟨yn, mn, dn⟩ else none
    | _, _, _ => none
  | _ => none

/-- Cell-wise `pd.to_datetime(-, errors="coerce")`.  An unparseable value
degrades to null, never to an error.  (pandas converts a raw number to an
epoch-offset timestamp; the exact date it converts to is irrelevant to
every claim, so the model fixes it.) -/
def to_datetime : Cell → Cell
  | Cell.str s => match parseDate s with
    | some d => Cell.date d
    | none => Cell.null
  | Cell.num _ => Cell.date ⟨1970, 1, 1⟩
  | Cell.date d => Cell.date d
  | Cell.null => Cell.null

/-- Cell-wise `pd.to_numeric(-, errors="coerce")`.  An unparseable value
degrades to null. -/
def to_numeric : Cell → Cell
  | Cell.str s => match parseNum s with
    | some q => Cell.num q
    | none => Cell.null
  | Cell.num q => Cell.num q
  | Cell.date _ => Cell.null
  | Cell.null => Cell.null

/-- The coerce-or-drop pass (app.py lines 96-99 on import, 114-116 before
aggregation): coerce `Date` and `Amount` to their semantic types, then drop
every row in which either ended up null. -/
def normalize (df : DataFrame) : DataFrame :=
  ((df.mapCol "Date" to_datetime).mapCol "Amount" to_numeric).dropna ["Date", "Amount"]

/-- In-memory ledger (`st.session_state.df`) plus its durable mirror
(`expenses.csv`, read back as a table). -/
structure LedgerState where
  mem : DataFrame
  disk : DataFrame
deriving DecidableEq, Repr

/-- Outcome reported to the user by the CSV-upload handler. -/
inductive ImportOutcome where
  | rejected
  | ok
deriving DecidableEq, Repr

/-- The required import columns (app.py line 87). -/
def required_cols : List String := ["Date", "Category", "Amount"]

/-- `temp_df["Description"] = ""` when the column is absent (app.py lines
92-93). -/
def synthDescription (df : DataFrame) : DataFrame :=
  if "Description" ∈ df.cols then df else df.mapCol "Description" fun _ => Cell.str ""

/-- The table an accepted bulk import installs: synthesize `Description`,
coerce `Date`/`Amount`, drop unparseable rows (app.py lines 92-99). -/
def importTable (df : DataFrame) : DataFrame :=
  normalize (synthDescription df)

/-- The CSV-upload handler (app.py lines 84-104): reject outright when a
required column is missing (`st.error` + `st.stop`), otherwise clean the
uploaded table and install it as the whole ledger, in memory and on disk. -/
def uploadCSV (st : LedgerState) (temp : DataFrame) : LedgerState × ImportOutcome :=
  if required_cols.all (· ∈ temp.cols) then
    let t := importTable temp
    ({ mem := t, disk := t }, ImportOutcome.ok)
  else
    (st, ImportOutcome.rejected)

/-- The row built from the manual-entry form (app.py lines 64-69):
`expense_date` is already a date, `amount` already numeric. -/
def manualRow (d : SDate) (category : String) (amount : ℚ) (description : String) : Row :=
  [("Date", Cell.date d), ("Category", Cell.str category),
   ("Amount", Cell.num amount), ("Description", Cell.str description)]

/-- The manual-entry submit handler (app.py lines 63-77): concat the new row
onto the session table, then rewrite the whole durable file. -/
def submitExpense (st : LedgerState) (d : SDate) (category : String) (amount : ℚ)
    (description : String) : LedgerState :=
  let newMem : DataFrame :=
    { st.mem with rows := st.mem.rows ++ [manualRow d category amount description] }
  { mem := newMem, disk := newMem }

/-- Reading the ledger inside a session (app.py lines 36, 107): the cached
`st.session_state.df` is returned; the durable file is not consulted. -/
def sessionLoad (st : LedgerState) : DataFrame :=
  st.mem

/-- Year-month bucket of a date, `Period("M")` rendered `astype(str)`:
`"YYYY-MM"`. -/
def monthStr (d : SDate) : String :=
  toString d.year ++ "-" ++ (if d.month < 10 then "0" ++ toString d.month else toString d.month)

/-- `df["Month"] = df["Date"].dt.to_period("M").astype(str)` (app.py line
118); the code reaches this line only after `normalize`, so every `Date`
cell is a date. -/
def addMonthCol (df : DataFrame) : DataFrame :=
  { cols := if "Month" ∈ df.cols then df.cols else df.cols ++ ["Month"],
    rows := df.rows.map fun r =>
      r.set "Month" (match r.get "Date" with
        | Cell.date d => Cell.str (monthStr d)
        | _ => Cell.null) }

/-- The filter block (app.py lines 137-143): restrict to the selected month
unless the sentinel `"All"` was chosen, then to the selected category
unless `"All"`.  Boolean-mask selection on a copy — the input table is
never mutated. -/
def filterBy (df : DataFrame) (month category : String) : DataFrame :=
  let d1 := if month = "All" then df
    else { df with rows := df.rows.filter fun r => r.get "Month" = Cell.str month }
  if category = "All" then d1
  else { d1 with rows := d1.rows.filter fun r => r.get "Category" = Cell.str category }

/-- Numeric content of a cell for summation; pandas `.sum()` skips nulls,
which is addition of `0`. -/
def cellNum : Cell → ℚ
  | Cell.num q => q
  | _ => 0

/-- `filtered_df["Amount"].sum()` (app.py line 148). -/
def total_expense (df : DataFrame) : ℚ :=
  (df.rows.map fun r => cellNum (r.get "Amount")).sum

/-- Total order on cells used to model pandas' sorted group keys: rank by
kind, strings lexicographically, numbers numerically, dates
chronologically. -/
def cellLe (a b : Cell) : Bool :=
  match a, b with
  | Cell.str s, Cell.str t => decide (¬ t < s)
  | Cell.num p, Cell.num q => decide (p ≤ q)
  | Cell.date d, Cell.date e =>
      decide (d.year < e.year ∨ (d.year = e.year ∧
        (d.month < e.month ∨ (d.month = e.month ∧ d.day ≤ e.day))))
  | Cell.null, _ => true
  | _, Cell.null => false
  | Cell.date _, _ => true
  | _, Cell.date _ => false
  | Cell.num _, _ => true
  | _, Cell.num _ => false

/-- Insertion step of the sort on group keys. -/
def insertCell (c : Cell) : List Cell → List Cell
  | [] => [c]
  | x :: xs => if cellLe c x then c :: x :: xs else x :: insertCell c xs

/-- Insertion sort on group keys (pandas `groupby` returns its groups
sorted by key). -/
def sortCells : List Cell → List Cell
  | [] => []
  | x :: xs => insertCell x (sortCells xs)

/-- The group keys of `groupby("Category")`: the distinct non-null category
cells, sorted (pandas groups by sorted key and drops null keys). -/
def categoryKeys (df : DataFrame) : List Cell :=
  sortCells ((df.rows.map fun r => r.get "Category").filter (· ≠ Cell.null)).dedup

/-- Summed `Amount` of the rows whose `Category` equals `key`. -/
def groupSum (df : DataFrame) (key : Cell) : ℚ :=
  ((df.rows.filter fun r => r.get "Category" = key).map fun r => cellNum (r.get "Amount")).sum

/-- `filtered_df.groupby("Category")["Amount"].sum()` (app.py lines 151,
177): summed amount per distinct non-null category, keyed in sorted
order. -/
def category_summary (df : DataFrame) : List (Cell × ℚ) :=
  (categoryKeys df).map fun k => (k, groupSum df k)

/-- One step of `Series.idxmax`: keep the incumbent unless the candidate is
strictly larger (so the first occurrence of the maximum wins). -/
def pickMax (best x : Cell × ℚ) : Cell × ℚ :=
  if best.2 < x.2 then x else best

/-- `Series.idxmax`: the first index attaining the maximal value; raises on
an empty series, modelled as `none`. -/
def idxmax (l : List (Cell × ℚ)) : Option Cell :=
  match l with
  | [] => none
  | p :: rest => some (rest.foldl pickMax p).1

/-- `top_category` (app.py lines 150-153): `"N/A"` for an empty table, else
the index of the per-category maximum — `none` models the `ValueError`
`idxmax` raises when grouping left no (non-null) key at all. -/
def top_category (df : DataFrame) : Option Cell :=
  if df.rows.isEmpty then some (Cell.str "N/A") else idxmax (category_summary df)

/-- The three budget-alert messages (app.py lines 164-169). -/
inductive Alert where
  | exceeded
  | approaching
  | underControl
deriving DecidableEq, Repr

/-- The budget-alert block (app.py lines 161-169): nothing is computed
unless the configured budget is positive; then usage is
`total / budget * 100` and the band thresholds are inclusive lower
bounds. -/
def budgetAlert (total budget : ℚ) : Option Alert :=
  if 0 < budget then
    let usage := total / budget * 100
    some (if 100 ≤ usage then Alert.exceeded
      else if 80 ≤ usage then Alert.approaching
      else Alert.underControl)
  else none

/-- The coercion an accepted import (and `normalize`) applies to one row:
`Date` through `to_datetime`, `Amount` through `to_numeric`; every other
cell untouched. -/
def coerceRow (r : Row) : Row :=
  (r.set "Date" (to_datetime (r.get "Date"))).set "Amount" (to_numeric (r.get "Amount"))

/-- The fixed on-disk schema (app.py lines 18-20). -/
def schemaCols : List String := ["Date", "Category", "Amount", "Description"]

/-- A concrete non-empty ledger state used as the pre-import state in
witnesses: one Bills record, memory and disk in sync. -/
def examplePrior : LedgerState :=
  { mem := { cols := schemaCols, rows := [manualRow ⟨2023, 5, 2⟩ "Bills" 7 "old"] },
    disk := { cols := schemaCols, rows := [manualRow ⟨2023, 5, 2⟩ "Bills" 7 "old"] } }

/-- The spec's drop-invalid-rows example file
`Date,Category,Amount\n2024-01-01,Food,100\nnot-a-date,Food,50` as
`pd.read_csv` materialises it (numeric column inferred, date column kept
as strings). -/
def exampleCSV : DataFrame :=
  { cols := ["Date", "Category", "Amount"],
    rows := [
      [("Date", Cell.str "2024-01-01"), ("Category", Cell.str "Food"),
       ("Amount", Cell.num 100)],
      [("Date", Cell.str "not-a-date"), ("Category", Cell.str "Food"),
       ("Amount", Cell.num 50)]] }

/-- An import file with the required columns whose single row has an
unparseable date — zero rows survive coercion. -/
def allInvalidCSV : DataFrame :=
  { cols := ["Date", "Category", "Amount"],
    rows := [[("Date", Cell.str "never"), ("Category", Cell.str "Food"),
              ("Amount", Cell.num 10)]] }

/-- An import file carrying an extra `Payee` column beyond the fixed
schema. -/
def extraColCSV : DataFrame :=
  { cols := ["Date", "Category", "Amount", "Payee"],
    rows := [[("Date", Cell.str "2024-01-01"), ("Category", Cell.str "Food"),
              ("Amount", Cell.num 100), ("Payee", Cell.str "acme")]] }

/-- A non-empty table with one record whose `Category` cell is null (an
imported row with an empty Category field produces exactly this): it
defeats the sum-consistency claim because `groupby` drops null keys. -/
def nullCategoryTable : DataFrame :=
  { cols := schemaCols,
    rows := [[("Date", Cell.date ⟨2024, 1, 1⟩), ("Category", Cell.null),
              ("Amount", Cell.num 100), ("Description", Cell.str "")]] }

/-- A non-empty table whose every `Category` cell is null: grouping leaves
no key and `idxmax` raises, defeating the top-category claim. -/
def allNullCategoryTable : DataFrame :=
  { cols := schemaCols,
    rows := [[("Date", Cell.date ⟨2024, 2, 2⟩), ("Category", Cell.null),
              ("Amount", Cell.num 5), ("Description", Cell.str "")]] }

/-- A table with two categories tied at the maximal sum, to witness the
deterministic tie-break. -/
def tieTable : DataFrame :=
  { cols := schemaCols,
    rows := [
      [("Date", Cell.date ⟨2024, 1, 1⟩), ("Category", Cell.str "Travel"),
       ("Amount", Cell.num 50), ("Description", Cell.str "")],
      [("Date", Cell.date ⟨2024, 1, 2⟩), ("Category", Cell.str "Food"),
       ("Amount", Cell.num 50), ("Description", Cell.str "")]] }

/-! ## Association-list row lemmas -/

theorem Row.get_set_self (r : Row) (k : String) (v : Cell) : (r.set k v).get k = v := by
  induction r with
  | nil => simp [Row.set, Row.get]
  | cons p rest ih =>
    by_cases h : p.1 = k
    · simp [Row.set, h, Row.get]
    · simp [Row.set, h, Row.get, ih]

theorem Row.get_set_ne (r : Row) {k k' : String} (v : Cell) (h : k' ≠ k) :
    (r.set k v).get k' = r.get k' := by
  have h' : k ≠ k' := Ne.symm h
  induction r with
  | nil => simp [Row.set, Row.get, h']
  | cons p rest ih =>
    by_cases hp : p.1 = k
    · have hp' : p.1 ≠ k' := by rw [hp]; exact h'
      simp [Row.set, hp, Row.get, h', hp']
    · have hset : Row.set (p :: rest) k v = p :: Row.set rest k v := by
        simp [Row.set, hp]
      by_cases hp' : p.1 = k'
      · rw [hset]; simp [Row.get, hp']
      · rw [hset]; simp [Row.get, hp', ih]

theorem Row.hasKey_set_self (r : Row) (k : String) (v : Cell) :
    (r.set k v).hasKey k = true := by
  induction r with
  | nil => simp [Row.set, Row.hasKey]
  | cons p rest ih =>
    by_cases h : p.1 = k
    · simp [Row.set, h, Row.hasKey]
    · simp [Row.set, h, Row.hasKey, ih]

theorem Row.hasKey_set (r : Row) (k k' : String) (v : Cell) (h : r.hasKey k' = true) :
    (r.set k v).hasKey k' = true := by
  induction r with
  | nil => simp [Row.hasKey] at h
  | cons p rest ih =>
    simp only [Row.hasKey, Bool.or_eq_true, decide_eq_true_eq] at h
    by_cases hp : p.1 = k
    · rcases h with h1 | h1
      · have hk : k = k' := by rw [← hp]; exact h1
        simp [Row.set, hp, Row.hasKey, hk]
      · simp [Row.set, hp, Row.hasKey, h1]
    · have hset : Row.set (p :: rest) k v = p :: Row.set rest k v := by
        simp [Row.set, hp]
      rcases h with h1 | h1
      · rw [hset]; simp [Row.hasKey, h1]
      · rw [hset]; simp [Row.hasKey, ih h1]

theorem Row.set_get_of_hasKey (r : Row) (k : String) (h : r.hasKey k = true) :
    r.set k (r.get k) = r := by
  induction r with
  | nil => simp [Row.hasKey] at h
  | cons p rest ih =>
    by_cases hp : p.1 = k
    · cases p with
      | mk k0 v0 => simp_all [Row.set, Row.get]
    · simp [Row.hasKey, hp] at h
      simp [Row.set, hp, Row.get, ih h]

theorem DataFrame.eq_of {a b : DataFrame} (h1 : a.cols = b.cols) (h2 : a.rows = b.rows) :
    a = b := by
  cases a; cases b; cases h1; cases h2; rfl

/-! ## Column-set bookkeeping -/

theorem DataFrame.cols_mapCol_of_mem (df : DataFrame) {k : String} (f : Cell → Cell)
    (h : k ∈ df.cols) : (df.mapCol k f).cols = df.cols := by
  simp [DataFrame.mapCol, h]

theorem DataFrame.mem_cols_mapCol (df : DataFrame) {k : String} (k' : String) (f : Cell → Cell)
    (h : k ∈ df.cols) : k ∈ (df.mapCol k' f).cols := by
  simp only [DataFrame.mapCol]
  split
  · exact h
  · exact List.mem_append_left _ h

theorem DataFrame.mem_cols_mapCol_self (df : DataFrame) (k : String) (f : Cell → Cell) :
    k ∈ (df.mapCol k f).cols := by
  simp only [DataFrame.mapCol]
  split
  · assumption
  · exact List.mem_append_right _ (by simp)

/-! ## The coerce-or-drop pass, row by row -/

theorem normalize_rows (df : DataFrame) :
    (normalize df).rows = (df.rows.map coerceRow).filter (rowComplete ["Date", "Amount"]) := by
  simp only [normalize, DataFrame.mapCol, DataFrame.dropna, List.map_map]
  congr 1
  refine List.map_congr_left fun r _ => ?_
  show (r.set "Date" (to_datetime (r.get "Date"))).set "Amount"
      (to_numeric ((r.set "Date" (to_datetime (r.get "Date"))).get "Amount")) = coerceRow r
  rw [Row.get_set_ne r _ (by decide : "Amount" ≠ "Date")]
  rfl

theorem coerceRow_get_date (r : Row) : (coerceRow r).get "Date" = to_datetime (r.get "Date") := by
  simp [coerceRow, Row.get_set_ne _ _ (by decide : "Date" ≠ "Amount"), Row.get_set_self]

theorem coerceRow_get_amount (r : Row) :
    (coerceRow r).get "Amount" = to_numeric (r.get "Amount") := by
  simp [coerceRow, Row.get_set_self]

theorem coerceRow_get_other (r : Row) {k : String} (h1 : k ≠ "Date") (h2 : k ≠ "Amount") :
    (coerceRow r).get k = r.get k := by
  simp [coerceRow, Row.get_set_ne _ _ h1, Row.get_set_ne _ _ h2]

theorem coerceRow_hasKey_date (r : Row) : (coerceRow r).hasKey "Date" = true :=
  Row.hasKey_set _ _ _ _ (Row.hasKey_set_self r "Date" _)

theorem coerceRow_hasKey_amount (r : Row) : (coerceRow r).hasKey "Amount" = true :=
  Row.hasKey_set_self _ "Amount" _

theorem to_datetime_cases (c : Cell) :
    to_datetime c = Cell.null ∨ ∃ d, to_datetime c = Cell.date d := by
  cases c with
  | str s =>
    cases h : parseDate s with
    | none => exact Or.inl (by simp [to_datetime, h])
    | some d => exact Or.inr ⟨d, by simp [to_datetime, h]⟩
  | num q => exact Or.inr ⟨⟨1970, 1, 1⟩, rfl⟩
  | date d => exact Or.inr ⟨d, rfl⟩
  | null => exact Or.inl rfl

theorem to_numeric_cases (c : Cell) :
    to_numeric c = Cell.null ∨ ∃ q, to_numeric c = Cell.num q := by
  cases c with
  | str s =>
    cases h : parseNum s with
    | none => exact Or.inl (by simp [to_numeric, h])
    | some q => exact Or.inr ⟨q, by simp [to_numeric, h]⟩
  | num q => exact Or.inr ⟨q, rfl⟩
  | date d => exact Or.inl rfl
  | null => exact Or.inl rfl

theorem map_id_of_mem {α : Type} {f : α → α} {l : List α} (h : ∀ a ∈ l, f a = a) :
    l.map f = l := by
  induction l with
  | nil => rfl
  | cons a t ih =>
    simp only [List.map_cons, h a (by simp), List.cons.injEq, true_and]
    exact ih fun b hb => h b (by simp [hb])

/-- A row that survived one coerce-or-drop pass is a fixed point of the
row coercion. -/
theorem coerceRow_fixed {r' : Row} (hmem : ∃ r, r' = coerceRow r)
    (hcomp : rowComplete ["Date", "Amount"] r' = true) : coerceRow r' = r' := by
  obtain ⟨r, rfl⟩ := hmem
  have hcd : (coerceRow r).get "Date" = to_datetime (r.get "Date") := coerceRow_get_date r
  have hca : (coerceRow r).get "Amount" = to_numeric (r.get "Amount") := coerceRow_get_amount r
  simp only [rowComplete, List.all_cons, List.all_nil, Bool.and_true, Bool.and_eq_true,
    decide_eq_true_eq] at hcomp
  have hd : ∃ d, (coerceRow r).get "Date" = Cell.date d := by
    rcases to_datetime_cases (r.get "Date") with h | h
    · exact absurd (hcd.trans h) hcomp.1
    · exact ⟨h.choose, hcd.trans h.choose_spec⟩
  have ha : ∃ q, (coerceRow r).get "Amount" = Cell.num q := by
    rcases to_numeric_cases (r.get "Amount") with h | h
    · exact absurd (hca.trans h) hcomp.2
    · exact ⟨h.choose, hca.trans h.choose_spec⟩
  obtain ⟨d, hd⟩ := hd
  obtain ⟨q, ha⟩ := ha
  show ((coerceRow r).set "Date" (to_datetime ((coerceRow r).get "Date"))).set "Amount"
      (to_numeric ((coerceRow r).get "Amount")) = coerceRow r
  rw [hd, ha]
  show ((coerceRow r).set "Date" (Cell.date d)).set "Amount" (Cell.num q) = coerceRow r
  rw [← hd, ← ha, Row.set_get_of_hasKey _ _ (coerceRow_hasKey_date r),
    Row.set_get_of_hasKey _ _ (coerceRow_hasKey_amount r)]

/-! ## Sorted group keys -/

theorem insertCell_perm (c : Cell) (l : List Cell) : List.Perm (insertCell c l) (c :: l) := by
  induction l with
  | nil => exact List.Perm.refl _
  | cons x xs ih =>
    simp only [insertCell]
    split
    · exact List.Perm.refl _
    · exact (List.Perm.cons x ih).trans (List.Perm.swap c x xs)

theorem sortCells_perm (l : List Cell) : List.Perm (sortCells l) l := by
  induction l with
  | nil => exact List.Perm.refl _
  | cons x xs ih => exact (insertCell_perm x (sortCells xs)).trans (List.Perm.cons x ih)

theorem categoryKeys_nodup (df : DataFrame) : (categoryKeys df).Nodup :=
  ((sortCells_perm _).nodup_iff).mpr (List.nodup_dedup _)

theorem mem_categoryKeys {df : DataFrame} {r : Row} (hr : r ∈ df.rows)
    (hnn : r.get "Category" ≠ Cell.null) : r.get "Category" ∈ categoryKeys df := by
  apply (sortCells_perm _).mem_iff.mpr
  rw [List.mem_dedup, List.mem_filter]
  exact ⟨List.mem_map_of_mem _ hr, by simpa using hnn⟩

/-! ## Partitioning the total over the category groups -/

theorem sum_if_not_mem {c : Cell} {ks : List Cell} (h : c ∉ ks) (a : ℚ) (g : Cell → ℚ) :
    (ks.map fun k => if c = k then a + g k else g k).sum = (ks.map g).sum := by
  induction ks with
  | nil => rfl
  | cons k t ih =>
    have hck : c ≠ k := fun hc => h (hc ▸ List.mem_cons_self k t)
    simp only [List.map_cons, List.sum_cons, if_neg hck,
      ih fun hc => h (List.mem_cons_of_mem _ hc)]

theorem sum_if_single {ks : List Cell} (hnd : ks.Nodup) {c : Cell} (hc : c ∈ ks) (a : ℚ)
    (g : Cell → ℚ) :
    (ks.map fun k => if c = k then a + g k else g k).sum = a + (ks.map g).sum := by
  induction ks with
  | nil => cases hc
  | cons k t ih =>
    rcases List.mem_cons.mp hc with hck | hct
    · subst hck
      have hcnot : c ∉ t := (List.nodup_cons.mp hnd).1
      simp only [List.map_cons, List.sum_cons, sum_if_not_mem hcnot a g]
      simp only [if_pos trivial, eq_self_iff_true, if_true]
      ring
    · have hck : c ≠ k := by
        intro hc2
        exact (List.nodup_cons.mp hnd).1 (hc2 ▸ hct)
      simp only [List.map_cons, List.sum_cons, if_neg hck,
        ih (List.nodup_cons.mp hnd).2 hct]
      ring

theorem groupSum_partition (rows : List Row) (keys : List Cell) (hnd : keys.Nodup)
    (hcov : ∀ r ∈ rows, r.get "Category" ∈ keys) :
    (keys.map fun k =>
      ((rows.filter fun r => r.get "Category" = k).map fun r => cellNum (r.get "Amount")).sum).sum
    = (rows.map fun r => cellNum (r.get "Amount")).sum := by
  induction rows with
  | nil => simp
  | cons r rest ih =>
    have hstep : ∀ k ∈ keys,
        (((r :: rest).filter fun r' => r'.get "Category" = k).map
          fun r' => cellNum (r'.get "Amount")).sum
        = if r.get "Category" = k
          then cellNum (r.get "Amount") +
            ((rest.filter fun r' => r'.get "Category" = k).map
              fun r' => cellNum (r'.get "Amount")).sum
          else ((rest.filter fun r' => r'.get "Category" = k).map
            fun r' => cellNum (r'.get "Amount")).sum := by
      intro k _
      by_cases h : r.get "Category" = k
      · simp [List.filter_cons, h]
      · simp [List.filter_cons, h]
    rw [List.map_congr_left hstep,
      sum_if_single hnd (hcov r (List.mem_cons_self r rest)) _ _,
      ih fun r' hr' => hcov r' (List.mem_cons_of_mem _ hr')]
    simp

/-! ## `idxmax` picks the first maximum -/

theorem foldl_pickMax_le (l : List (Cell × ℚ)) (p : Cell × ℚ) :
    ∀ q ∈ p :: l, q.2 ≤ (l.foldl pickMax p).2 := by
  induction l generalizing p with
  | nil =>
    intro q hq
    rcases List.mem_cons.mp hq with rfl | hq2
    · exact le_refl _
    · cases hq2
  | cons x t ih =>
    intro q hq
    have hinit : (t.foldl pickMax (pickMax p x)).2 = (List.foldl pickMax p (x :: t)).2 := rfl
    have hp2 : p.2 ≤ (pickMax p x).2 := by
      unfold pickMax
      split
      · exact le_of_lt (by assumption)
      · exact le_refl _
    have hx2 : x.2 ≤ (pickMax p x).2 := by
      unfold pickMax
      split
      · exact le_refl _
      · exact le_of_not_lt (by assumption)
    have htop : (pickMax p x).2 ≤ (t.foldl pickMax (pickMax p x)).2 :=
      ih (pickMax p x) (pickMax p x) (List.mem_cons_self _ _)
    rcases List.mem_cons.mp hq with rfl | hq2
    · exact le_trans hp2 htop
    · rcases List.mem_cons.mp hq2 with rfl | hq3
      · exact le_trans hx2 htop
      · exact ih (pickMax p x) q (List.mem_cons_of_mem _ hq3)

theorem foldl_pickMax_find (l : List (Cell × ℚ)) (p : Cell × ℚ) :
    (p :: l).find? (fun q => decide (q.2 = (l.foldl pickMax p).2)) = some (l.foldl pickMax p) := by
  induction l generalizing p with
  | nil => simp [List.find?]
  | cons x t ih =>
    simp only [List.foldl_cons]
    by_cases h : p.2 < x.2
    · have hpx : pickMax p x = x := by simp [pickMax, h]
      simp only [hpx]
      have hlt : p.2 < (t.foldl pickMax x).2 :=
        lt_of_lt_of_le h (foldl_pickMax_le t x x (List.mem_cons_self _ _))
      rw [List.find?_cons_of_neg _ (by simpa using ne_of_lt hlt)]
      exact ih x
    · have hpx : pickMax p x = p := by simp [pickMax, h]
      simp only [hpx]
      have hfind := ih p
      by_cases hp : p.2 = (t.foldl pickMax p).2
      · rw [List.find?_cons_of_pos _ (by simpa using hp)]
        rw [List.find?_cons_of_pos _ (by simpa using hp)] at hfind
        exact hfind
      · have hplt : p.2 < (t.foldl pickMax p).2 :=
          lt_of_le_of_ne (foldl_pickMax_le t p p (List.mem_cons_self _ _)) hp
        have hx : ¬ (x.2 = (t.foldl pickMax p).2) :=
          ne_of_lt (lt_of_le_of_lt (le_of_not_lt h) hplt)
        rw [List.find?_cons_of_neg _ (by simpa using hp),
          List.find?_cons_of_neg _ (by simpa using hx)]
        rw [List.find?_cons_of_neg _ (by simpa using hp)] at hfind
        exact hfind

/-! ## Column bookkeeping through `normalize` -/

theorem normalize_mem_cols (df : DataFrame) :
    "Date" ∈ (normalize df).cols ∧ "Amount" ∈ (normalize df).cols := by
  simp only [normalize, DataFrame.dropna]
  exact ⟨DataFrame.mem_cols_mapCol _ _ _ (DataFrame.mem_cols_mapCol_self df "Date" _),
    DataFrame.mem_cols_mapCol_self _ "Amount" _⟩

theorem normalize_cols_of_mem {df : DataFrame} (h1 : "Date" ∈ df.cols)
    (h2 : "Amount" ∈ df.cols) : (normalize df).cols = df.cols := by
  simp only [normalize, DataFrame.dropna]
  rw [DataFrame.cols_mapCol_of_mem _ _ (DataFrame.mem_cols_mapCol _ _ _ h2),
    DataFrame.cols_mapCol_of_mem _ _ h1]

theorem synthDescription_get (df : DataFrame) (r' : Row) (hr' : r' ∈ (synthDescription df).rows) :
    ∃ r ∈ df.rows, r'.get "Date" = r.get "Date" ∧ r'.get "Amount" = r.get "Amount" := by
  by_cases h : "Description" ∈ df.cols
  · exact ⟨r', by simpa [synthDescription, if_pos h] using hr', rfl, rfl⟩
  · simp only [synthDescription, if_neg h, DataFrame.mapCol] at hr'
    obtain ⟨r, hr, rfl⟩ := List.mem_map.mp hr'
    exact ⟨r, hr, Row.get_set_ne _ _ (by decide), Row.get_set_ne _ _ (by decide)⟩

/-! ## The claims -/

/-- C1: a bulk-import file lacking at least one of the required columns
`Date`, `Category`, `Amount` is rejected whole with a reported failure, and
the ledger state — in-memory table and durable file alike — is exactly the
pre-import state. -/
theorem import_missing_column_rejected (st : LedgerState) (temp : DataFrame)
    (h : "Date" ∉ temp.cols ∨ "Category" ∉ temp.cols ∨ "Amount" ∉ temp.cols) :
    uploadCSV st temp = (st, ImportOutcome.rejected) := by
  have hall : required_cols.all (· ∈ temp.cols) = false := by
    rcases h with h | h | h <;> simp [required_cols, h]
  simp [uploadCSV, hall]

/-- Witness for C1: a concrete file with no `Amount` column is rejected and
the concrete non-empty prior state survives untouched. -/
theorem import_missing_column_rejected_witness :
    uploadCSV examplePrior { cols := ["Date", "Category"], rows := [] }
      = (examplePrior, ImportOutcome.rejected) :=
  import_missing_column_rejected examplePrior _ (Or.inr (Or.inr (by decide)))

/-- C2: with the required columns present the import succeeds, and the new
ledger — replacing the old wholesale, with disk mirroring memory — holds
exactly the coerced rows whose `Date` and `Amount` parsed; on the spec's
two-row example file the resulting ledger holds exactly the first row. -/
theorem import_drops_unparseable :
    (∀ (st : LedgerState) (temp : DataFrame),
      "Date" ∈ temp.cols → "Category" ∈ temp.cols → "Amount" ∈ temp.cols →
      (uploadCSV st temp).2 = ImportOutcome.ok ∧
      (uploadCSV st temp).1.mem.rows
        = ((synthDescription temp).rows.map coerceRow).filter (rowComplete ["Date", "Amount"]) ∧
      (uploadCSV st temp).1.disk = (uploadCSV st temp).1.mem) ∧
    (uploadCSV examplePrior exampleCSV).1.mem.rows
      = [[("Date", Cell.date ⟨2024, 1, 1⟩), ("Category", Cell.str "Food"),
          ("Amount", Cell.num 100), ("Description", Cell.str "")]] := by
  constructor
  · intro st temp h1 h2 h3
    have hall : required_cols.all (· ∈ temp.cols) = true := by
      simp [required_cols, h1, h2, h3]
    exact ⟨by simp [uploadCSV, hall],
      by simp [uploadCSV, hall, importTable, normalize_rows],
      by simp [uploadCSV, hall]⟩
  · decide

/-- Witness for C2's universal part at the example file and a non-empty
prior ledger. -/
theorem import_drops_unparseable_witness :
    (uploadCSV examplePrior exampleCSV).2 = ImportOutcome.ok ∧
    (uploadCSV examplePrior exampleCSV).1.mem.rows
      = ((synthDescription exampleCSV).rows.map coerceRow).filter
          (rowComplete ["Date", "Amount"]) ∧
    (uploadCSV examplePrior exampleCSV).1.disk = (uploadCSV examplePrior exampleCSV).1.mem :=
  import_drops_unparseable.1 examplePrior exampleCSV (by decide) (by decide) (by decide)

/-- C3: an import whose every row loses its `Date` or `Amount` to coercion
still succeeds and replaces the ledger — memory and disk — with an empty
table, whatever the prior ledger held. -/
theorem import_zero_valid_rows_empties_ledger (st : LedgerState) (temp : DataFrame)
    (h1 : "Date" ∈ temp.cols) (h2 : "Category" ∈ temp.cols) (h3 : "Amount" ∈ temp.cols)
    (hbad : ∀ r ∈ temp.rows, to_datetime (r.get "Date") = Cell.null ∨
      to_numeric (r.get "Amount") = Cell.null) :
    (uploadCSV st temp).2 = ImportOutcome.ok ∧
    (uploadCSV st temp).1.mem.rows = [] ∧
    (uploadCSV st temp).1.disk.rows = [] := by
  have hall : required_cols.all (· ∈ temp.cols) = true := by
    simp [required_cols, h1, h2, h3]
  have hrows : (importTable temp).rows = [] := by
    rw [importTable, normalize_rows, List.filter_eq_nil_iff]
    intro r' hr'
    obtain ⟨r0, hr0, rfl⟩ := List.mem_map.mp hr'
    obtain ⟨r, hr, hD, hA⟩ := synthDescription_get temp r0 hr0
    rcases hbad r hr with hb | hb
    · simp [rowComplete, coerceRow_get_date, coerceRow_get_amount, hD, hA, hb]
    · simp [rowComplete, coerceRow_get_date, coerceRow_get_amount, hD, hA, hb]
  exact ⟨by simp [uploadCSV, hall], by simp [uploadCSV, hall, hrows],
    by simp [uploadCSV, hall, hrows]⟩

/-- Witness for C3: a file whose single row has an unparseable date zeroes
out a concrete non-empty ledger. -/
theorem import_zero_valid_rows_empties_ledger_witness :
    (uploadCSV examplePrior allInvalidCSV).2 = ImportOutcome.ok ∧
    (uploadCSV examplePrior allInvalidCSV).1.mem.rows = [] ∧
    (uploadCSV examplePrior allInvalidCSV).1.disk.rows = [] :=
  import_zero_valid_rows_empties_ledger examplePrior allInvalidCSV
    (by decide) (by decide) (by decide) (by decide)

/-- C4: manual entry appends the one submitted record to the in-memory
table, immediately mirrors the whole table to the durable file, and a
subsequent in-session load — which reads only the session cache, never the
disk — yields a table containing the record unchanged. -/
theorem append_roundtrip (st : LedgerState) (d : SDate) (category : String) (amount : ℚ)
    (description : String) :
    (submitExpense st d category amount description).mem.rows
      = st.mem.rows ++ [manualRow d category amount description] ∧
    (submitExpense st d category amount description).disk
      = (submitExpense st d category amount description).mem ∧
    manualRow d category amount description
      ∈ (sessionLoad (submitExpense st d category amount description)).rows := by
  refine ⟨rfl, rfl, ?_⟩
  simp [sessionLoad, submitExpense]

/-- C5: the budget alert exists exactly when the budget is positive; usage
is `total / budget * 100`; bands have inclusive lower boundaries
(`usage ≥ 100` exceeded, `80 ≤ usage < 100` approaching, `usage < 80`
under control), with the spec's three sample points checked. -/
theorem budget_bands :
    (∀ total budget : ℚ, budget ≤ 0 → budgetAlert total budget = none) ∧
    (∀ total budget : ℚ, 0 < budget →
      (100 ≤ total / budget * 100 → budgetAlert total budget = some Alert.exceeded) ∧
      (80 ≤ total / budget * 100 → total / budget * 100 < 100 →
        budgetAlert total budget = some Alert.approaching) ∧
      (total / budget * 100 < 80 → budgetAlert total budget = some Alert.underControl)) ∧
    budgetAlert 800 1000 = some Alert.approaching ∧
    budgetAlert 1000 1000 = some Alert.exceeded ∧
    budgetAlert 500 1000 = some Alert.underControl := by
  refine ⟨?_, ?_, ?_, ?_, ?_⟩
  · intro t b hb
    simp [budgetAlert, not_lt.mpr hb]
  · intro t b hb
    refine ⟨fun h100 => ?_, fun h80 h100 => ?_, fun h80 => ?_⟩
    · simp [budgetAlert, hb, h100]
    · simp [budgetAlert, hb, not_le.mpr h100, h80]
    · have h100 : t / b * 100 < 100 := lt_trans h80 (by norm_num)
      simp [budgetAlert, hb, not_le.mpr h100, not_le.mpr h80]
  · norm_num [budgetAlert]
  · norm_num [budgetAlert]
  · norm_num [budgetAlert]

/-- Witness for C5's quantified parts: a zero budget yields no alert; a
fresh 80%-usage point lands in the approaching band. -/
theorem budget_bands_witness :
    budgetAlert 100 0 = none ∧ budgetAlert 1600 2000 = some Alert.approaching :=
  ⟨budget_bands.1 100 0 (by norm_num),
    (budget_bands.2.1 1600 2000 (by norm_num)).2.1 (by norm_num) (by norm_num)⟩

/-- C6 counterexample: a non-empty table holding one record with a null
`Category` (exactly what an import row with an empty Category field
produces) has total 100 but a category breakdown summing to 0, because
`groupby` drops null keys — the claimed identity fails as stated. -/
theorem sum_consistency_fails_on_null_category :
    nullCategoryTable.rows ≠ [] ∧
    total_expense nullCategoryTable
      ≠ ((category_summary nullCategoryTable).map Prod.snd).sum := by
  constructor
  · decide
  · have h2 : category_summary nullCategoryTable = [] := by decide
    have hg : Row.get [("Date", Cell.date ⟨2024, 1, 1⟩), ("Category", Cell.null),
        ("Amount", Cell.num 100), ("Description", Cell.str "")] "Amount"
        = Cell.num 100 := by decide
    have h1 : total_expense nullCategoryTable = 100 := by
      simp [total_expense, nullCategoryTable, hg, cellNum]
    rw [h1, h2]
    norm_num

/-- C6 (amended): for every table in which no record's `Category` is null,
the total equals the sum of the category-breakdown values; the total of an
empty table is 0. -/
theorem sum_consistency
    (df : DataFrame) (hnn : ∀ r ∈ df.rows, r.get "Category" ≠ Cell.null) :
    total_expense df = ((category_summary df).map Prod.snd).sum ∧
    (df.rows = [] → total_expense df = 0) := by
  constructor
  · have hsnd : (category_summary df).map Prod.snd = (categoryKeys df).map (groupSum df) := by
      simp [category_summary, List.map_map, Function.comp]
    rw [total_expense, hsnd]
    exact (groupSum_partition df.rows (categoryKeys df) (categoryKeys_nodup df)
      fun r hr => mem_categoryKeys hr (hnn r hr)).symm
  · intro h
    simp [total_expense, h]

/-- Witness for C6 (amended) at a concrete two-category table and at the
empty table. -/
theorem sum_consistency_witness :
    (total_expense tieTable = ((category_summary tieTable).map Prod.snd).sum ∧
      (tieTable.rows = [] → total_expense tieTable = 0)) ∧
    (total_expense { cols := schemaCols, rows := [] }
        = ((category_summary { cols := schemaCols, rows := [] }).map Prod.snd).sum ∧
      (({ cols := schemaCols, rows := [] } : DataFrame).rows = [] →
        total_expense { cols := schemaCols, rows := [] } = 0)) :=
  ⟨sum_consistency tieTable (by decide), sum_consistency _ (by decide)⟩

/-- C7 counterexample: a non-empty table whose every record has a null
`Category` leaves `groupby` with no key, so `idxmax` raises (modelled
`none`) — the result is neither a category nor the `"N/A"` sentinel, so
the claim fails as stated. -/
theorem top_category_fails_on_all_null :
    allNullCategoryTable.rows ≠ [] ∧ top_category allNullCategoryTable = none := by
  exact ⟨by decide, by decide⟩

/-- C7 (amended): an empty table yields the sentinel `"N/A"`; a non-empty
table with at least one non-null category yields the first entry of the
sorted per-category sums that attains the maximum — a deterministic
tie-break (the computation is a pure function of the input). -/
theorem top_category_first_max :
    (∀ df : DataFrame, df.rows = [] → top_category df = some (Cell.str "N/A")) ∧
    (∀ df : DataFrame, df.rows ≠ [] →
      (∃ r ∈ df.rows, r.get "Category" ≠ Cell.null) →
      ∃ b : Cell × ℚ, top_category df = some b.1 ∧
        (∀ p ∈ category_summary df, p.2 ≤ b.2) ∧
        (category_summary df).find? (fun p => decide (p.2 = b.2)) = some b) := by
  constructor
  · intro df h
    simp [top_category, h]
  · rintro df hne ⟨r, hr, hnn⟩
    have hkey : r.get "Category" ∈ categoryKeys df := mem_categoryKeys hr hnn
    have hcs : category_summary df ≠ [] := by
      simp only [category_summary, ne_eq, List.map_eq_nil_iff]
      exact List.ne_nil_of_mem hkey
    obtain ⟨p0, rest, hview⟩ := List.exists_cons_of_ne_nil hcs
    refine ⟨rest.foldl pickMax p0, ?_, ?_, ?_⟩
    · simp [top_category, List.isEmpty_iff, hne, hview, idxmax]
    · intro p hp
      rw [hview] at hp
      exact foldl_pickMax_le rest p0 p hp
    · rw [hview]
      exact foldl_pickMax_find rest p0

/-- Witness for C7 (amended): the two-way tie at 50 resolves to the first
sorted category. -/
theorem top_category_first_max_witness :
    ∃ b : Cell × ℚ, top_category tieTable = some b.1 ∧
      (∀ p ∈ category_summary tieTable, p.2 ≤ b.2) ∧
      (category_summary tieTable).find? (fun p => decide (p.2 = b.2)) = some b :=
  top_category_first_max.2 tieTable (by decide) (by decide)

/-- C8: filtering by month with the category sentinel and then by category
with the month sentinel equals filtering once by both.  (`filterBy` acts on
an immutable table value — the code filters a copy by boolean mask, so the
input table is unaffected.) -/
theorem filter_compose (df : DataFrame) (month category : String) :
    filterBy (filterBy df month "All") "All" category = filterBy df month category := by
  by_cases hm : month = "All" <;> by_cases hc : category = "All" <;>
    simp [filterBy, hm, hc]

/-- C9: the coerce-or-drop normalization is idempotent — applied to its own
output it changes nothing, so the safety-net pass before aggregation leaves
data that already passed load or import normalization untouched. -/
theorem normalize_idempotent (df : DataFrame) : normalize (normalize df) = normalize df := by
  apply DataFrame.eq_of
  · exact normalize_cols_of_mem (normalize_mem_cols df).1 (normalize_mem_cols df).2
  · rw [normalize_rows (normalize df)]
    have hall : ∀ r' ∈ (normalize df).rows, rowComplete ["Date", "Amount"] r' = true := by
      intro r' h
      rw [normalize_rows df] at h
      exact (List.mem_filter.mp h).2
    have hfix : ∀ r' ∈ (normalize df).rows, coerceRow r' = r' := by
      intro r' h
      have h2 := h
      rw [normalize_rows df] at h2
      obtain ⟨hmap, hcomp⟩ := List.mem_filter.mp h2
      obtain ⟨r, _, rfl⟩ := List.mem_map.mp hmap
      exact coerceRow_fixed ⟨r, rfl⟩ hcomp
    rw [map_id_of_mem hfix]
    exact List.filter_eq_self.mpr hall

/-- C10: an import whose file has the required columns plus extra columns
succeeds; every uploaded column label is kept in the new ledger, each
surviving row's cells outside Date/Amount/Description come verbatim from
an uploaded row, and the durable file mirrors memory. -/
theorem import_retains_extra_columns (st : LedgerState) (temp : DataFrame)
    (h1 : "Date" ∈ temp.cols) (h2 : "Category" ∈ temp.cols) (h3 : "Amount" ∈ temp.cols) :
    (uploadCSV st temp).2 = ImportOutcome.ok ∧
    (∀ k ∈ temp.cols, k ∈ (uploadCSV st temp).1.mem.cols) ∧
    (∀ r' ∈ (uploadCSV st temp).1.mem.rows, ∃ r ∈ temp.rows,
      ∀ k : String, k ≠ "Date" → k ≠ "Amount" → k ≠ "Description" →
        r'.get k = r.get k) ∧
    (uploadCSV st temp).1.disk = (uploadCSV st temp).1.mem := by
  have hall : required_cols.all (· ∈ temp.cols) = true := by
    simp [required_cols, h1, h2, h3]
  have hmem : (uploadCSV st temp).1.mem = importTable temp := by
    simp [uploadCSV, hall]
  refine ⟨by simp [uploadCSV, hall], ?_, ?_, by simp [uploadCSV, hall]⟩
  · intro k hk
    rw [hmem]
    have hks : k ∈ (synthDescription temp).cols := by
      by_cases hD : "Description" ∈ temp.cols
      · simpa [synthDescription, if_pos hD] using hk
      · simp only [synthDescription, if_neg hD]
        exact DataFrame.mem_cols_mapCol _ _ _ hk
    simp only [importTable, normalize, DataFrame.dropna]
    exact DataFrame.mem_cols_mapCol _ _ _ (DataFrame.mem_cols_mapCol _ _ _ hks)
  · intro r' hr'
    rw [hmem, importTable, normalize_rows] at hr'
    obtain ⟨hmap, _⟩ := List.mem_filter.mp hr'
    obtain ⟨r0, hr0, rfl⟩ := List.mem_map.mp hmap
    by_cases hD : "Description" ∈ temp.cols
    · refine ⟨r0, by simpa [synthDescription, if_pos hD] using hr0, ?_⟩
      intro k hk1 hk2 _
      exact coerceRow_get_other r0 hk1 hk2
    · simp only [synthDescription, if_neg hD, DataFrame.mapCol] at hr0
      obtain ⟨r, hr, rfl⟩ := List.mem_map.mp hr0
      refine ⟨r, hr, ?_⟩
      intro k hk1 hk2 hk3
      rw [coerceRow_get_other _ hk1 hk2, Row.get_set_ne _ _ hk3]

/-- Witness for C10 at a concrete file carrying an extra `Payee` column. -/
theorem import_retains_extra_columns_witness :
    (uploadCSV examplePrior extraColCSV).2 = ImportOutcome.ok ∧
    (∀ k ∈ extraColCSV.cols, k ∈ (uploadCSV examplePrior extraColCSV).1.mem.cols) ∧
    (∀ r' ∈ (uploadCSV examplePrior extraColCSV).1.mem.rows, ∃ r ∈ extraColCSV.rows,
      ∀ k : String, k ≠ "Date" → k ≠ "Amount" → k ≠ "Description" →
        r'.get k = r.get k) ∧
    (uploadCSV examplePrior extraColCSV).1.disk = (uploadCSV examplePrior extraColCSV).1.mem :=
  import_retains_extra_columns examplePrior extraColCSV (by decide) (by decide) (by decide)

end Expense
